import Mathlib

/-!
Verification development for the synthetic-s3 workload tool
(`src/synth3.py`, with the legacy variant `src/synthettic-s3.py`).

The Python program is shallowly embedded: pure computations become Lean
functions; calls to the object store / snapshot service collaborators are
modelled by explicit data (a put-log store, a snapshot listing passed as a
list); exceptions become `Except`.  The stdlib JSON text codec is treated as
an external collaborator: the printer `Json.dumps` is modelled concretely,
while the parser is a parameter constrained (where a claim needs it) by the
stdlib contract `loads (dumps doc) = ok doc`.
-/

namespace SynthS3

/-- JSON documents as produced/consumed by `json.dumps` / `json.loads`.
Objects keep their fields in insertion order, mirroring Python dicts. -/
inductive Json where
  | null : Json
  | bool : Bool → Json
  | num : Int → Json
  | str : String → Json
  | arr : List Json → Json
  | obj : List (String × Json) → Json
deriving Inhabited

/-- Escaping of a single character inside a JSON string literal
(quote, backslash and the common control characters). -/
def escChar (c : Char) : String :=
  if c = '"' then "\\\""
  else if c = '\\' then "\\\\"
  else if c = '\n' then "\\n"
  else if c = '\t' then "\\t"
  else if c = '\r' then "\\r"
  else String.singleton c

/-- Escape a string for inclusion in JSON output. -/
def jsonEscape (s : String) : String :=
  String.join (s.toList.map escChar)

mutual

/-- Model of `json.dumps` with the default separators. -/
def Json.dumps : Json → String
  | .null => "null"
  | .bool true => "true"
  | .bool false => "false"
  | .num n => toString n
  | .str s => "\"" ++ jsonEscape s ++ "\""
  | .arr xs => "[" ++ Json.dumpsArr xs ++ "]"
  | .obj fs => "\x7b" ++ Json.dumpsObj fs ++ "\x7d"

/-- Comma-separated rendering of a JSON array body. -/
def Json.dumpsArr : List Json → String
  | [] => ""
  | [x] => Json.dumps x
  | x :: y :: xs => Json.dumps x ++ ", " ++ Json.dumpsArr (y :: xs)

/-- Comma-separated rendering of a JSON object body. -/
def Json.dumpsObj : List (String × Json) → String
  | [] => ""
  | [(k, v)] => "\"" ++ jsonEscape k ++ "\": " ++ Json.dumps v
  | (k, v) :: f :: fs =>
      "\"" ++ jsonEscape k ++ "\": " ++ Json.dumps v ++ ", " ++ Json.dumpsObj (f :: fs)

end

/-- Python dict assignment `d[k] = v` on a JSON object field list: update the
first binding of `k` in place, otherwise append at the end (insertion order). -/
def setFieldList : List (String × Json) → String → Json → List (String × Json)
  | [], k, v => [(k, v)]
  | (k0, v0) :: rest, k, v =>
      if k0 = k then (k, v) :: rest else (k0, v0) :: setFieldList rest k v

/-- Python `metadata["generated_at"] = ...`: assignment on a dict document.
On a non-object document Python would raise `TypeError`; theorems that use
this operation restrict to object documents. -/
def Json.setField : Json → String → Json → Json
  | .obj fields, k, v => .obj (setFieldList fields k v)
  | j, _, _ => j

/-- Python dict read `d[k]` on a JSON document (as `Option`; Python raises
`KeyError` when the key is absent, and `TypeError` on a non-dict). -/
def Json.lookup : Json → String → Option Json
  | .obj fields, k => (fields.find? (fun p => p.1 = k)).map (fun p => p.2)
  | _, _ => none

/-- The empty ledger (objects empty, generated_at null) returned by
`load_metadata` when the metadata object cannot be fetched or parsed. -/
def emptyLedger : Json :=
  Json.obj [("objects", Json.obj []), ("generated_at", Json.null)]

/-- The object store, modelled as the chronological log of `put_object`
calls `(bucket, key, body)`; a read returns the body of the most recent
put to that `(bucket, key)` and fails (as boto3 does, with an exception)
when there has been none. -/
structure MetaStore where
  puts : List (String × String × String)
deriving Repr, DecidableEq, Inhabited

/-- Model of `put_object(bucket, key, body)`. -/
def MetaStore.put (st : MetaStore) (bucket key body : String) : MetaStore :=
  ⟨st.puts ++ [(bucket, key, body)]⟩

/-- Model of `get_object(bucket, key)`: last write wins, missing key raises. -/
def MetaStore.get (st : MetaStore) (bucket key : String) : Except String String :=
  match st.puts.reverse.find? (fun p => p.1 = bucket && p.2.1 = key) with
  | some p => .ok p.2.2
  | none => .error "NoSuchKey"

/-- Core of `load_metadata` (src/synth3.py lines 97-106), abstracted over the
outcome of the `get_object` call and over the `json.loads` parser: the
`try` body fetches and parses, and any exception (missing object, I/O
failure, unparseable content) falls through to the empty ledger. -/
def load_metadata_from (loads : String → Except String Json)
    (fetched : Except String String) : Json :=
  match fetched with
  | .error _ => emptyLedger
  | .ok content =>
      match loads content with
      | .error _ => emptyLedger
      | .ok j => j

/-- Model of `load_metadata` against the modelled store: fetch the metadata object at
the configured key and parse it, returning the empty ledger on any failure. -/
def load_metadata (loads : String → Except String Json) (st : MetaStore)
    (bucket key : String) : Json :=
  load_metadata_from loads (st.get bucket key)

/-- Model of `flush_meta` (src/synth3.py lines 183-193): stamp
`generated_at` on the metadata document (in the code the stamp is a
one-element tuple holding the ISO timestamp, here an arbitrary document
`ts`), serialize, and overwrite the metadata object. -/
def flush_meta (st : MetaStore) (bucket key : String) (meta : Json) (ts : Json) :
    MetaStore :=
  st.put bucket key (Json.dumps (meta.setField "generated_at" ts))

/-! ### Snapshot directory (src/synth3.py lines 51-84) -/

/-- A snapshot record as returned by the snapshot service: the code reads
the snapshot id (compared via int conversion, hence modelled as `Nat`) and
the snapshot name nested under its Info member. -/
structure Snap where
  id : Nat
  name : String
deriving Repr, DecidableEq, Inhabited

/-- The retention test of `list_snapshots`: a snapshot is kept unless
`start_after is not None and int(snap_id) <= int(start_after)`. -/
def afterCursor (start_after : Option Nat) (i : Nat) : Bool :=
  match start_after with
  | none => true
  | some a => a < i

/-- Python dict assignment `snaps_by_name[snap_name] = snap_id`, recorded as
the chronological assignment log of the dict build loop. -/
def dictAssign (d : List (String × Nat)) (k : String) (v : Nat) :
    List (String × Nat) :=
  d ++ [(k, v)]

/-- Python dict read `d.get(k)`: the value of the most recent assignment. -/
def dictGet (d : List (String × Nat)) (k : String) : Option Nat :=
  (d.reverse.find? (fun p => p.1 = k)).map (fun p => p.2)

/-- Model of `list_snapshots(env, start_after)` (src/synth3.py lines 51-70):
iterate the service listing in order, skip ids at or below the cursor, and
build the name → id index over the retained snapshots by dict assignment. -/
def list_snapshots (snaps : List Snap) (start_after : Option Nat) :
    List Snap × List (String × Nat) :=
  snaps.foldl
    (fun acc snap =>
      if afterCursor start_after snap.id then
        (acc.1 ++ [snap], dictAssign acc.2 snap.name snap.id)
      else acc)
    ([], [])

/-- Model of `get_snap_id(env, snap_id, snap_name)` (src/synth3.py lines
72-84): a supplied id is returned unchecked; an absent (or falsy, i.e.
empty) name yields no id; otherwise the name is looked up in the index of
the full listing and a miss raises. -/
def get_snap_id (snaps : List Snap) (snap_id : Option Nat)
    (snap_name : Option String) : Except String (Option Nat) :=
  match snap_id with
  | some i => .ok (some i)
  | none =>
      match snap_name with
      | none => .ok none
      | some n =>
          if n = "" then .ok none
          else
            match dictGet (list_snapshots snaps none).2 n with
            | some i => .ok (some i)
            | none => .error ("ERROR: snapshot not found: " ++ n)

/-! ### Range resolver (src/synth3.py lines 133-142, `Env.__init__`) -/

/-- Model of the range computation at the end of `Env.__init__`: inputs are
the resolved target snapshot id (`self.snap_id`), the raw from-snapshot id
(`conf.from_snap_id` — the code consults the config value here, not the
name-resolved one) and the `--all-objs` flag; output is `self.snap_range`. -/
def resolveRange (snap_id : Option Nat) (from_snap_id : Option Nat)
    (all_objs : Bool) : Option String :=
  let snap_range : Option String :=
    match snap_id with
    | some i => some (toString i)
    | none => none
  let snap_id_str := snap_range.getD ""
  if all_objs then some ("-" ++ snap_id_str)
  else
    match from_snap_id with
    | some f => some (toString f ++ "-" ++ snap_id_str)
    | none => snap_range

/-- The point form `S` of a range expression. -/
def isPointForm (r : String) : Prop := ∃ s : Nat, r = toString s

/-- The full-through form `-S` of a range expression, allowing the blessed
empty target (`-` meaning all history to now). -/
def isFullThroughForm (r : String) : Prop :=
  ∃ t : String, r = "-" ++ t ∧ (t = "" ∨ ∃ s : Nat, t = toString s)

/-- The delta form `F-S` of a range expression, allowing an empty target
(`F-` meaning through current). -/
def isDeltaForm (r : String) : Prop :=
  ∃ f : Nat, ∃ t : String,
    r = toString f ++ "-" ++ t ∧ (t = "" ∨ ∃ s : Nat, t = toString s)

/-- A resolved range is unbounded (absent) or one of the three written forms. -/
def isRangeForm : Option String → Prop
  | none => True
  | some r => isPointForm r ∨ isFullThroughForm r ∨ isDeltaForm r

/-! ### Sync engine (src/synth3.py lines 226-265) -/

/-- The listing range computed at the top of `copy_bucket` from its
`snap_id`/`incremental` parameters: a truthy snapshot id becomes `str(id)`,
prefixed with `-` on a non-incremental (full) copy.  Python truthiness makes
id 0 behave like an absent id. -/
def copyRange (snap_id : Option Nat) (incremental : Bool) : Option String :=
  match snap_id with
  | none => none
  | some s =>
      if s = 0 then none
      else if incremental then some (toString s)
      else some ("-" ++ toString s)

/-- The seed collapse in `sync_bucket`: on a non-incremental run with a
non-empty filtered listing, keep only the last (latest) snapshot. -/
def seedCollapse (snaps : List Snap) (incremental : Bool) : List Snap :=
  if incremental then snaps
  else
    match snaps.getLast? with
    | some s => [s]
    | none => snaps

/-- Model of `sync_bucket(dest, follow_snaps, cur_snap_id, incremental)`
(src/synth3.py lines 244-265).  The returned pair is the new cursor (the
return value of the function) and the trace of `copy_bucket` invocations, each
recorded as `(snap_id argument, listing range used)`; the non-follow branch
performs one unbounded copy and leaves the cursor untouched. -/
def sync_bucket (snaps : List Snap) (follow_snaps : Bool)
    (cur_snap_id : Option Nat) (incremental : Bool) :
    Option Nat × List (Option Nat × Option String) :=
  if !follow_snaps then
    (cur_snap_id, [(none, copyRange none incremental)])
  else
    let filtered := (list_snapshots snaps cur_snap_id).1
    let toProcess := seedCollapse filtered incremental
    toProcess.foldl
      (fun acc snap =>
        (some snap.id,
         acc.2 ++ [(some snap.id, copyRange (some snap.id) incremental)]))
      (cur_snap_id, [])

/-- The object-copy loop of `copy_bucket` (src/synth3.py lines 235-242),
after the listing for the chosen range has been obtained: keys outside the
configured prefix are skipped; each remaining key is fetched from the source
(at the snapshot of the copy, folded into `fetch`) and written to the identical
key in the destination.  The destination bucket content is modelled as a
partial map from key to body. -/
def copy_bucket (pfx : String) (listing : List String) (fetch : String → String)
    (dest : String → Option String) : String → Option String :=
  listing.foldl
    (fun d k =>
      if k.startsWith pfx then
        fun k2 => if k2 = k then some (fetch k) else d k2
      else d)
    dest

/-! ### Workload configuration (src/synth3.py lines 14-22 and 296-304) -/

/-- The fields of `WorkloadConfig` relevant to metadata addressing: the key
prefix and the metadata object key derived from it at construction time. -/
structure WorkloadConfig where
  pfx : String
  metadata_object_key : String
deriving Repr, DecidableEq, Inhabited

/-- Constructor `WorkloadConfig.__init__`: the prefix defaults to `demo-objects/` and the
metadata key is computed once from that default. -/
def initConf : WorkloadConfig :=
  { pfx := "demo-objects/"
    metadata_object_key := "demo-objects/" ++ "metadata.json" }

/-- The configuration updates of `main` (src/synth3.py line 299):
`conf.prefix = args.prefix or conf.prefix` — a missing or empty (falsy)
`--prefix` keeps the default; `metadata_object_key` is not recomputed. -/
def applyArgs (conf : WorkloadConfig) (argPfx : Option String) : WorkloadConfig :=
  { conf with
    pfx :=
      match argPfx with
      | none => conf.pfx
      | some p => if p = "" then conf.pfx else p }

/-! ### Validator (src/synth3.py lines 195-224; legacy copy in
src/synthettic-s3.py lines 133-159) -/

/-- A ledger entry as read by the validator: `object_key`, `size`, `sha256`. -/
structure ObjMeta where
  object_key : String
  size : Nat
  sha256 : String
deriving Repr, DecidableEq, Inhabited

/-- Insertion into a list sorted by numeric id, used to model
`sorted(..., key=lambda item: int(item[0]))`. -/
def insertById (x : Nat × ObjMeta) : List (Nat × ObjMeta) → List (Nat × ObjMeta)
  | [] => [x]
  | y :: ys => if x.1 ≤ y.1 then x :: y :: ys else y :: insertById x ys

/-- Sorting of the ledger items by ascending numeric id. -/
def sortById (l : List (Nat × ObjMeta)) : List (Nat × ObjMeta) :=
  l.foldr insertById []

/-- The digest the validator reports for one entry: the hash of the fetched
content, or the sentinel when the fetch raises (the bare `except` on
src/synth3.py lines 205-209). -/
def reportedDigest (fetch : String → Except String String)
    (hashFn : String → String) (e : ObjMeta) : String :=
  match fetch e.object_key with
  | .ok data => hashFn data
  | .error _ => "<error>"

/-- Model of `SyntheticS3Workload.validate` in src/synth3.py: iterate the
ledger in ascending id order; per entry emit the report line
`(id, expected digest, actual digest)`; count mismatches and track the
success flag.  Returns `(lines, fail_count, success)`. -/
def validate (fetch : String → Except String String) (hashFn : String → String)
    (objects : List (Nat × ObjMeta)) :
    List (Nat × String × String) × Nat × Bool :=
  (sortById objects).foldl
    (fun acc e =>
      let actual := reportedDigest fetch hashFn e.2
      let lineOk : Bool := actual = e.2.sha256
      (acc.1 ++ [(e.1, e.2.sha256, actual)],
       if lineOk then acc.2.1 else acc.2.1 + 1,
       acc.2.2 && lineOk))
    ([], 0, true)

/-- Model of the legacy `SyntheticS3Workload.validate` in
src/synthettic-s3.py: identical iteration, but the `get_object` call is not
guarded by a `try`, so a fetch failure propagates out of the loop. -/
def validateLegacy (fetch : String → Except String String)
    (hashFn : String → String) (objects : List (Nat × ObjMeta)) :
    Except String (List (Nat × String × String) × Nat × Bool) :=
  (sortById objects).foldlM
    (fun acc e =>
      match fetch e.2.object_key with
      | .error msg => .error msg
      | .ok data =>
          let actual := hashFn data
          let lineOk : Bool := actual = e.2.sha256
          .ok (acc.1 ++ [(e.1, e.2.sha256, actual)],
               if lineOk then acc.2.1 else acc.2.1 + 1,
               acc.2.2 && lineOk))
    ([], 0, true)

/-! ## Helper lemmas -/

theorem MetaStore.get_put_same (st : MetaStore) (b k v : String) :
    (st.put b k v).get b k = .ok v := by
  simp [MetaStore.put, MetaStore.get]

theorem find?_setFieldList_ne (fields : List (String × Json)) (k k2 : String)
    (v : Json) (h : k2 ≠ k) :
    (setFieldList fields k v).find? (fun p => p.1 = k2) =
      fields.find? (fun p => p.1 = k2) := by
  induction fields with
  | nil => simp [setFieldList, List.find?, Ne.symm h]
  | cons hd tl ih =>
      obtain ⟨k0, v0⟩ := hd
      by_cases hk : k0 = k
      · subst hk
        simp [setFieldList, List.find?, Ne.symm h]
      · simp only [setFieldList, if_neg hk]
        by_cases hk2 : k0 = k2
        · simp [List.find?, hk2]
        · simp [List.find?, hk2, ih]

theorem lookup_setField_ne (fields : List (String × Json)) (k k2 : String)
    (v : Json) (h : k2 ≠ k) :
    ((Json.obj fields).setField k v).lookup k2 = (Json.obj fields).lookup k2 := by
  simp [Json.setField, Json.lookup, find?_setFieldList_ne fields k k2 v h]

/-! ## C6: metadata load is always recoverable -/

/-- C6: for every outcome of fetching the metadata object (missing object or
I/O failure, i.e. any raising fetch, or unparseable content), `load_metadata`
returns the empty ledger `{objects: {}, generated_at: null}`; it never
propagates an error, as its total (non-`Except`) return type shows. -/
theorem c6_load_metadata_recoverable (loads : String → Except String Json)
    (fetched : Except String String)
    (h : (∃ msg, fetched = .error msg) ∨
         (∃ content, fetched = .ok content ∧ ∃ msg, loads content = .error msg)) :
    load_metadata_from loads fetched = emptyLedger := by
  rcases h with ⟨msg, hmsg⟩ | ⟨content, hcontent, msg, hparse⟩
  · simp [load_metadata_from, hmsg]
  · simp [load_metadata_from, hcontent, hparse]

/-- Witness for C6: a missing metadata object together with a parser that
rejects everything still yields the empty ledger. -/
theorem c6_witness :
    load_metadata_from (fun _ => Except.error "invalid json")
      (Except.error "NoSuchKey") = emptyLedger :=
  c6_load_metadata_recoverable (fun _ => Except.error "invalid json")
    (Except.error "NoSuchKey") (Or.inl ⟨"NoSuchKey", rfl⟩)

/-! ## C7: ledger round-trip through flush and load -/

/-- C7: flushing a ledger document and loading it back from the same bucket
and key yields a document whose `objects` member equals the flushed one;
`generated_at` is allowed to differ (flush restamps it).  The stdlib JSON
parser is abstracted as `loads`, constrained only by the stdlib contract
that it inverts `Json.dumps` on the flushed document. -/
theorem c7_flush_load_roundtrip (loads : String → Except String Json)
    (st : MetaStore) (bucket key : String) (fields : List (String × Json))
    (ts : Json)
    (hloads : loads (Json.dumps ((Json.obj fields).setField "generated_at" ts)) =
      .ok ((Json.obj fields).setField "generated_at" ts)) :
    (load_metadata loads (flush_meta st bucket key (Json.obj fields) ts)
        bucket key).lookup "objects" =
      (Json.obj fields).lookup "objects" := by
  unfold load_metadata flush_meta
  rw [MetaStore.get_put_same]
  simp only [load_metadata_from, hloads]
  exact lookup_setField_ne fields "generated_at" "objects" ts (by decide)

/-- The concrete ledger document used by the C7 witness, as flushed
(`generated_at` stamped). -/
def c7doc : Json :=
  (Json.obj [("objects", Json.obj [("1", Json.str "x")])]).setField
    "generated_at" (Json.str "2026-01-01T00:00:00Z")

/-- A concrete parser satisfying the stdlib contract on the C7 witness
document. -/
def c7loads (s : String) : Except String Json :=
  if s = Json.dumps c7doc then .ok c7doc else .error "invalid json"

/-- Witness for C7: a concrete one-entry ledger flushed to and loaded from
`demo-objects/metadata.json` keeps its `objects` member. -/
theorem c7_witness :
    (load_metadata c7loads
        (flush_meta ⟨[]⟩ "bkt" "demo-objects/metadata.json"
          (Json.obj [("objects", Json.obj [("1", Json.str "x")])])
          (Json.str "2026-01-01T00:00:00Z"))
        "bkt" "demo-objects/metadata.json").lookup "objects" =
      (Json.obj [("objects", Json.obj [("1", Json.str "x")])]).lookup "objects" :=
  c7_flush_load_roundtrip c7loads ⟨[]⟩ "bkt" "demo-objects/metadata.json"
    [("objects", Json.obj [("1", Json.str "x")])]
    (Json.str "2026-01-01T00:00:00Z") (by simp [c7loads, c7doc])

/-! ## C3: metadata key does not follow the --prefix option -/

/-- C3 (code bug): with `--prefix custom/` the effective prefix becomes
`custom/` but `metadata_object_key`, computed once in
`WorkloadConfig.__init__` from the default prefix and never recomputed in
`main`, stays `demo-objects/metadata.json`; consequently a ledger stored at
the prefix-derived key `custom/metadata.json` is not found by
`load_metadata`, which returns the empty ledger. -/
theorem c3_metadata_key_ignores_cli_prefix_override :
    (applyArgs initConf (some "custom/")).pfx = "custom/" ∧
    (applyArgs initConf (some "custom/")).metadata_object_key =
      "demo-objects/metadata.json" ∧
    (applyArgs initConf (some "custom/")).metadata_object_key ≠
      (applyArgs initConf (some "custom/")).pfx ++ "metadata.json" ∧
    load_metadata (fun s => .ok (Json.str s))
      (MetaStore.put ⟨[]⟩ "bkt" ("custom/" ++ "metadata.json") "LEDGER")
      "bkt" (applyArgs initConf (some "custom/")).metadata_object_key =
      emptyLedger := by
  refine ⟨rfl, rfl, by decide, rfl⟩

/-! ## Snapshot listing characterization -/

theorem list_snapshots_foldl (snaps : List Snap) (c : Option Nat)
    (acc : List Snap × List (String × Nat)) :
    snaps.foldl
      (fun acc snap =>
        if afterCursor c snap.id then
          (acc.1 ++ [snap], dictAssign acc.2 snap.name snap.id)
        else acc) acc =
      (acc.1 ++ snaps.filter (fun s => afterCursor c s.id),
       acc.2 ++ (snaps.filter (fun s => afterCursor c s.id)).map
         (fun s => (s.name, s.id))) := by
  induction snaps generalizing acc with
  | nil => simp
  | cons s l ih =>
      simp only [dictAssign] at ih ⊢
      by_cases hs : afterCursor c s.id
      · simp [List.foldl_cons, hs, ih, List.filter_cons]
      · simp [List.foldl_cons, hs, ih, List.filter_cons]

theorem list_snapshots_eq (snaps : List Snap) (c : Option Nat) :
    list_snapshots snaps c =
      (snaps.filter (fun s => afterCursor c s.id),
       (snaps.filter (fun s => afterCursor c s.id)).map (fun s => (s.name, s.id))) := by
  simpa [list_snapshots] using list_snapshots_foldl snaps c ([], [])

theorem str_append_empty (s : String) : s ++ "" = s := by
  cases s
  show String.mk _ = String.mk _
  simp [String.append]

/-! ## C5: snapshot listing with a cursor -/

/-- C5: `list_snapshots` with cursor `a` returns exactly the snapshots with
id strictly greater than `a`, in original listing order (the filter of the
input list), and every entry of the returned name → id index comes from one
of those filtered snapshots. -/
theorem c5_listing_cursor_filter (snaps : List Snap) (a : Nat) :
    (list_snapshots snaps (some a)).1 =
      snaps.filter (fun s => decide (a < s.id)) ∧
    ((list_snapshots snaps (some a)).2.all (fun p =>
      (list_snapshots snaps (some a)).1.any
        (fun s => decide (s.name = p.1) && decide (s.id = p.2)))) = true := by
  rw [list_snapshots_eq]
  refine ⟨rfl, ?_⟩
  rw [List.all_eq_true]
  intro p hp
  rw [List.mem_map] at hp
  obtain ⟨s, hs, hps⟩ := hp
  rw [List.any_eq_true]
  refine ⟨s, hs, ?_⟩
  subst hps
  simp

/-! ## C4: name lookup resolves to the last-listed match -/

/-- C4: when no id is supplied and a (non-empty) name is, `get_snap_id`
returns the id of the last-listed snapshot bearing that name: the name → id
index is built by overwriting in listing order, so the last assignment wins. -/
theorem c4_name_lookup_last_wins (snaps : List Snap) (n : String) (s0 : Snap)
    (hn : n ≠ "")
    (hfind : snaps.reverse.find? (fun s => decide (s.name = n)) = some s0) :
    get_snap_id snaps none (some n) = .ok (some s0.id) := by
  have hidx : dictGet (list_snapshots snaps none).2 n = some s0.id := by
    rw [list_snapshots_eq]
    unfold dictGet
    have hfil : snaps.filter (fun s => afterCursor (none : Option Nat) s.id) = snaps := by
      simp [afterCursor]
    rw [hfil, ← List.map_reverse, List.find?_map]
    have hcomp :
        List.find? ((fun p : String × Nat => decide (p.1 = n)) ∘
          fun s : Snap => (s.name, s.id)) snaps.reverse = some s0 := hfind
    rw [hcomp]
    rfl
  simp only [get_snap_id, if_neg hn, hidx]

/-- Witness for C4: the spec scenario — snapshots `[{id:1,name:"a"},
{id:2,name:"a"}]`, `resolve(nil,"a")` returns `2`. -/
theorem c4_witness :
    get_snap_id [⟨1, "a"⟩, ⟨2, "a"⟩] none (some "a") = .ok (some 2) :=
  c4_name_lookup_last_wins [⟨1, "a"⟩, ⟨2, "a"⟩] "a" ⟨2, "a"⟩ (by decide)
    (by decide)

/-! ## C10: sync cursor is unmoved when nothing is processed -/

/-- C10: `sync_bucket` returns the input cursor unchanged whenever no
snapshot is processed — when `follow_snaps` is false, or when no listed
snapshot has id strictly greater than the cursor (a nil cursor filters
nothing, so then the listing itself must be empty). -/
theorem c10_sync_cursor_unmoved (snaps : List Snap) (follow : Bool)
    (cur : Option Nat) (incremental : Bool)
    (h : follow = false ∨ ∀ s ∈ snaps, afterCursor cur s.id = false) :
    (sync_bucket snaps follow cur incremental).1 = cur := by
  rcases h with hf | hnone
  · subst hf
    simp [sync_bucket]
  · by_cases hf : follow
    · have hfil : (list_snapshots snaps cur).1 = [] := by
        rw [list_snapshots_eq]
        simpa [List.filter_eq_nil_iff] using hnone
      simp [sync_bucket, hf, hfil, seedCollapse]
    · simp [sync_bucket, hf]

/-- Witness for C10: follow mode with one snapshot at or below the cursor
leaves the cursor at 7. -/
theorem c10_witness : (sync_bucket [⟨5, "a"⟩] true (some 7) false).1 = some 7 :=
  c10_sync_cursor_unmoved [⟨5, "a"⟩] true (some 7) false (Or.inr (by decide))

/-! ## C2: first (non-incremental) follow-snapshots sync -/

/-- The three pre-existing snapshots of the seed-sync scenario. -/
def snaps3 : List Snap := [⟨10, "s10"⟩, ⟨20, "s20"⟩, ⟨30, "s30"⟩]

/-- C2 counterexample: in the seed scenario the single copy step lists with
the full-through range `-30`, not the point range `30` the claim states. -/
theorem c2_counterexample :
    (sync_bucket snaps3 true none false).2 = [(some 30, some "-30")] ∧
    (some "-30" : Option String) ≠ some (toString (30 : Nat)) := by
  exact ⟨rfl, by decide⟩

/-- C2 amended: with `follow_snapshots=true`, `incremental=false`, snapshots
`[10,20,30]` and a nil cursor, exactly one copy step runs, for snapshot 30,
listing with the full-through range `-30` (per-object reads are pinned to
snapshot 30 via the recorded `snap_id`), and the returned cursor is 30. -/
theorem c2_seed_sync_amended :
    sync_bucket snaps3 true none false = (some 30, [(some 30, some "-30")]) := by
  rfl

/-! ## C1: the range resolver -/

/-- C1 counterexample: with `all_objs` set, a present `from_id` and an absent
target, the resolver emits `-` (the all-objects branch takes priority), not
the `<from>-` delta form demanded by the unconditioned from-clause of the claim. -/
theorem c1_counterexample :
    resolveRange none (some 5) true = some "-" ∧
    resolveRange none (some 5) true ≠ some (toString (5 : Nat) ++ "-") := by
  exact ⟨rfl, by decide⟩

/-- C1 amended: the resolved range is always one of the four defined forms
(unbounded / point / full-through / delta, target possibly empty in the last
two); `all_objs = true` forces an output starting with `-`; when `all_objs`
is false: a present `from_id` with an absent target yields `<from>-`, both
absent yields the unbounded (null) range, and a lone target yields the point
form `<target>`. -/
theorem c1_range_resolver_amended (t f : Option Nat) (a : Bool) :
    isRangeForm (resolveRange t f a) ∧
    (a = true → ∃ rest, resolveRange t f a = some ("-" ++ rest)) ∧
    (∀ fv, f = some fv → t = none → a = false →
      resolveRange t f a = some (toString fv ++ "-")) ∧
    (t = none → f = none → a = false → resolveRange t f a = none) ∧
    (∀ tv, t = some tv → f = none → a = false →
      resolveRange t f a = some (toString tv)) := by
  cases a with
  | true =>
      cases t with
      | none =>
          cases f <;>
            exact ⟨Or.inr (Or.inl ⟨"", rfl, Or.inl rfl⟩),
              fun _ => ⟨"", rfl⟩,
              fun fv hf ht ha => by simp at ha,
              fun ht hf ha => by simp at ha,
              fun tv ht hf ha => by simp at ha⟩
      | some tv0 =>
          cases f <;>
            exact ⟨Or.inr (Or.inl ⟨toString tv0, rfl, Or.inr ⟨tv0, rfl⟩⟩),
              fun _ => ⟨toString tv0, rfl⟩,
              fun fv hf ht ha => by simp at ha,
              fun ht hf ha => by simp at ha,
              fun tv ht hf ha => by simp at ha⟩
  | false =>
      cases t with
      | none =>
          cases f with
          | none =>
              exact ⟨trivial,
                fun ha => by simp at ha,
                fun fv hf ht ha => by simp at hf,
                fun _ _ _ => rfl,
                fun tv ht hf ha => by simp at ht⟩
          | some fv0 =>
              refine ⟨Or.inr (Or.inr ⟨fv0, "", rfl, Or.inl rfl⟩),
                fun ha => by simp at ha,
                fun fv hf ht ha => ?_,
                fun ht hf ha => by simp at hf,
                fun tv ht hf ha => by simp at ht⟩
              obtain rfl : fv0 = fv := by injection hf
              show some (toString fv0 ++ "-" ++ "") = some (toString fv0 ++ "-")
              rw [str_append_empty]
      | some tv0 =>
          cases f with
          | none =>
              exact ⟨Or.inl ⟨tv0, rfl⟩,
                fun ha => by simp at ha,
                fun fv hf ht ha => by simp at hf,
                fun ht hf ha => by simp at ht,
                fun tv ht hf ha => by injection ht with h2; subst h2; rfl⟩
          | some fv0 =>
              exact ⟨Or.inr (Or.inr ⟨fv0, toString tv0, rfl, Or.inr ⟨tv0, rfl⟩⟩),
                fun ha => by simp at ha,
                fun fv hf ht ha => by simp at ht,
                fun ht hf ha => by simp at ht,
                fun tv ht hf ha => by simp at hf⟩

/-- Witness for C1: the amended resolver facts at concrete inputs — the delta
form `5-`, the unbounded case, the point form `7`, and an all-objects output
starting with `-`. -/
theorem c1_witness :
    resolveRange none (some 5) false = some (toString (5 : Nat) ++ "-") ∧
    resolveRange none none false = none ∧
    resolveRange (some 7) none false = some (toString (7 : Nat)) ∧
    (∃ rest, resolveRange (some 7) none true = some ("-" ++ rest)) :=
  ⟨(c1_range_resolver_amended none (some 5) false).2.2.1 5 rfl rfl rfl,
   (c1_range_resolver_amended none none false).2.2.2.1 rfl rfl rfl,
   (c1_range_resolver_amended (some 7) none false).2.2.2.2 7 rfl rfl rfl,
   (c1_range_resolver_amended (some 7) none true).2.1 rfl⟩

/-! ## C9: copy idempotence -/

theorem copy_bucket_apply (pfx : String) (listing : List String)
    (fetch : String → String) (dest : String → Option String) (k : String) :
    copy_bucket pfx listing fetch dest k =
      if k ∈ listing ∧ k.startsWith pfx = true then some (fetch k) else dest k := by
  induction listing generalizing dest with
  | nil => simp [copy_bucket]
  | cons x xs ih =>
      show copy_bucket pfx xs fetch _ k = _
      rw [ih]
      by_cases hx : x.startsWith pfx
      · by_cases hk : k = x
        · subst hk
          by_cases hmem : k ∈ xs <;> simp [hmem, hx]
        · simp [hx, hk, List.mem_cons]
      · by_cases hk : k = x
        · subst hk
          simp [hx, List.mem_cons]
        · simp [hx, hk, List.mem_cons]

/-- C9: for every key prefix, listing and per-key source content (both fixed
by the chosen range over an unchanged source), running the `copy_bucket`
object loop twice over the same destination produces destination content
identical to running it once: every put overwrites a key with the same
fetched body, and no key is ever removed. -/
theorem c9_copy_idempotent (pfx : String) (listing : List String)
    (fetch : String → String) (dest : String → Option String) :
    copy_bucket pfx listing fetch (copy_bucket pfx listing fetch dest) =
      copy_bucket pfx listing fetch dest := by
  funext k
  rw [copy_bucket_apply, copy_bucket_apply]
  by_cases h : k ∈ listing ∧ k.startsWith pfx = true <;> simp [h]

/-! ## C8: the validator -/

theorem mem_insertById (x z : Nat × ObjMeta) (l : List (Nat × ObjMeta)) :
    z ∈ insertById x l ↔ z = x ∨ z ∈ l := by
  induction l with
  | nil => simp [insertById]
  | cons y ys ih =>
      rw [insertById]
      by_cases h : x.1 ≤ y.1
      · rw [if_pos h]
        simp [List.mem_cons]
      · rw [if_neg h]
        simp only [List.mem_cons, ih]
        tauto

theorem pairwise_insertById (x : Nat × ObjMeta) (l : List (Nat × ObjMeta))
    (hl : l.Pairwise (fun a b => a.1 ≤ b.1)) :
    (insertById x l).Pairwise (fun a b => a.1 ≤ b.1) := by
  induction l with
  | nil => simp [insertById]
  | cons y ys ih =>
      rw [List.pairwise_cons] at hl
      obtain ⟨hy, hys⟩ := hl
      rw [insertById]
      by_cases hxy : x.1 ≤ y.1
      · rw [if_pos hxy]
        refine List.Pairwise.cons ?_ (List.Pairwise.cons hy hys)
        intro z hz
        rcases List.mem_cons.mp hz with rfl | hz2
        · exact hxy
        · exact le_trans hxy (hy z hz2)
      · rw [if_neg hxy]
        refine List.Pairwise.cons ?_ (ih hys)
        intro z hz
        rcases (mem_insertById x z ys).mp hz with rfl | hz2
        · exact le_of_not_le hxy
        · exact hy z hz2

theorem sortById_pairwise (l : List (Nat × ObjMeta)) :
    (sortById l).Pairwise (fun a b => a.1 ≤ b.1) := by
  induction l with
  | nil => exact List.Pairwise.nil
  | cons x xs ih => exact pairwise_insertById x (sortById xs) ih

theorem mem_sortById (l : List (Nat × ObjMeta)) (z : Nat × ObjMeta) :
    z ∈ sortById l ↔ z ∈ l := by
  induction l with
  | nil => exact Iff.rfl
  | cons x xs ih =>
      show z ∈ insertById x (sortById xs) ↔ _
      rw [mem_insertById]
      simp [ih, List.mem_cons]

theorem validate_foldl (fetch : String → Except String String)
    (hashFn : String → String) (l : List (Nat × ObjMeta))
    (acc : List (Nat × String × String) × Nat × Bool) :
    l.foldl
      (fun acc e =>
        let actual := reportedDigest fetch hashFn e.2
        let lineOk : Bool := actual = e.2.sha256
        (acc.1 ++ [(e.1, e.2.sha256, actual)],
         if lineOk then acc.2.1 else acc.2.1 + 1,
         acc.2.2 && lineOk)) acc =
      (acc.1 ++ l.map (fun e => (e.1, e.2.sha256, reportedDigest fetch hashFn e.2)),
       acc.2.1 +
         l.countP (fun e => !(decide (reportedDigest fetch hashFn e.2 = e.2.sha256))),
       acc.2.2 &&
         l.all (fun e => decide (reportedDigest fetch hashFn e.2 = e.2.sha256))) := by
  induction l generalizing acc with
  | nil => simp
  | cons e l ih =>
      rw [List.foldl_cons, ih]
      by_cases hok : reportedDigest fetch hashFn e.2 = e.2.sha256
      · simp [hok, List.countP_cons, Bool.and_assoc, Prod.ext_iff]
      · simp [hok, List.countP_cons, Bool.and_assoc, Prod.ext_iff]
        omega

theorem countP_map_comp {α β : Type} (p : β → Bool) (f : α → β) (l : List α) :
    (l.map f).countP p = l.countP (fun a => p (f a)) := by
  induction l with
  | nil => rfl
  | cons x xs ih => simp [List.countP_cons, ih]

theorem all_iff_countP_not {α : Type} (p : α → Bool) (l : List α) :
    (l.all p = true) ↔ l.countP (fun a => !(p a)) = 0 := by
  induction l with
  | nil => simp
  | cons x xs ih =>
      cases hx : p x <;> simp [List.all_cons, List.countP_cons, hx, ih]

/-- C8 (amended part, for src/synth3.py): the validator report lists the
ledger entries in ascending numeric id order; each line reports the recorded
digest against the hash of the fetched content, with a fetch error reported
as the sentinel `<error>` rather than raising, and (digests being 64
characters) counted as a mismatch; the mismatch counter equals the number of
mismatching lines; and the run is a SUCCESS exactly when that counter is
zero. -/
theorem c8_validator (fetch : String → Except String String)
    (hashFn : String → String) (objects : List (Nat × ObjMeta))
    (hdig : ∀ e ∈ objects, (e.2).sha256.length = 64) :
    (validate fetch hashFn objects).1 =
      (sortById objects).map
        (fun e => (e.1, e.2.sha256, reportedDigest fetch hashFn e.2)) ∧
    ((validate fetch hashFn objects).1.map (fun ln => ln.1)).Pairwise (· ≤ ·) ∧
    (validate fetch hashFn objects).2.1 =
      ((validate fetch hashFn objects).1.filter
        (fun ln => !(decide (ln.2.2 = ln.2.1)))).length ∧
    ((validate fetch hashFn objects).2.2 = true ↔
      (validate fetch hashFn objects).2.1 = 0) ∧
    (∀ e ∈ objects, ∀ msg, fetch (e.2).object_key = .error msg →
      reportedDigest fetch hashFn e.2 = "<error>" ∧ "<error>" ≠ (e.2).sha256) := by
  have hchar := validate_foldl fetch hashFn (sortById objects) ([], 0, true)
  have hval : validate fetch hashFn objects =
      ((sortById objects).map
        (fun e => (e.1, e.2.sha256, reportedDigest fetch hashFn e.2)),
       (sortById objects).countP
         (fun e => !(decide (reportedDigest fetch hashFn e.2 = e.2.sha256))),
       (sortById objects).all
         (fun e => decide (reportedDigest fetch hashFn e.2 = e.2.sha256))) := by
    unfold validate
    rw [hchar]
    simp
  refine ⟨by rw [hval], ?_, ?_, ?_, ?_⟩
  · rw [hval]
    simp only [List.map_map, List.pairwise_map]
    exact sortById_pairwise objects
  · rw [hval]
    rw [← List.countP_eq_length_filter, countP_map_comp]
  · rw [hval]
    exact all_iff_countP_not _ _
  · intro e he msg hmsg
    refine ⟨by simp [reportedDigest, hmsg], ?_⟩
    intro heq
    have h64 := hdig e he
    rw [← heq] at h64
    exact absurd h64 (by decide)

/-- A 64-hex-character digest for the C8 witness ledger entry. -/
def d64 : String := String.mk (List.replicate 64 'a')

/-- Witness for C8: a one-entry ledger whose digest is 64 characters and
whose fetch always raises still reaches the final report, and SUCCESS holds
exactly when the mismatch count is zero. -/
theorem c8_witness :
    ((validate (fun _ => Except.error "io failure") (fun _ => "h")
        [(1, ⟨"demo-objects/object_1.txt", 5, d64⟩)]).2.2 = true ↔
      (validate (fun _ => Except.error "io failure") (fun _ => "h")
        [(1, ⟨"demo-objects/object_1.txt", 5, d64⟩)]).2.1 = 0) :=
  (c8_validator (fun _ => Except.error "io failure") (fun _ => "h")
    [(1, ⟨"demo-objects/object_1.txt", 5, d64⟩)] (by decide)).2.2.2.1

/-- C8 counterexample: the claim also cites the validator of
src/synthettic-s3.py, whose `get_object` call is not wrapped in a `try`; on
a ledger entry whose fetch fails, that validator propagates the error
instead of counting a mismatch with a sentinel digest. -/
theorem c8_counterexample :
    validateLegacy (fun _ => Except.error "NoSuchKey") (fun _ => "h")
      [(1, ⟨"demo-objects/object_1.txt", 5, d64⟩)] =
      Except.error "NoSuchKey" := rfl

end SynthS3
